import Mathlib

/-!
A shallow embedding of the core extraction / change-detection logic of
`runts_monitor.py` (RUNTS registry monitor), together with proofs about it.

HTML documents are modelled as a tree of elements and text nodes.  The
BeautifulSoup operations the script uses are modelled with their documented
semantics for a modern bs4 (4.9+):

* searches (`find`, `find_all`) scan the element tree in document order
  (depth-first pre-order), excluding the node searched from;
* `tag.string` is the unique text descendant reached through a chain of
  single children, or absent;
* `get_text(strip=True)` concatenates all descendant text nodes, each
  stripped of surrounding whitespace;
* `find_next_sibling()` with no filter yields the next sibling that is an
  element (text siblings are skipped);
* `find_parent` walks ancestors from the nearest one (the root node of a
  tree plays the role of the `[document]` soup object);
* a `Tag` is always truthy, a `NavigableString` is truthy when non-empty.

Machine-level concerns (the Playwright navigation, file I/O, logging) are
outside the model; the functions below mirror the pure computation.
-/

/-! ## String helpers (Python `in`, `strip`, `isdigit`, `int`) -/

/-- `listHeadMatch n h` : the char list `n` is a prefix of `h`. -/
def listHeadMatch : List Char → List Char → Bool
  | [], _ => true
  | _ :: _, [] => false
  | a :: as, b :: bs => a == b && listHeadMatch as bs

/-- `listSub n h` : the char list `n` occurs inside `h` (Python `in`). -/
def listSub (n : List Char) : List Char → Bool
  | [] => listHeadMatch n []
  | b :: bs => listHeadMatch n (b :: bs) || listSub n bs

/-- `strSub needle hay` : Python `needle in hay` on strings. -/
def strSub (needle hay : String) : Bool :=
  listSub needle.data hay.data

/-- Python `str.isdigit` (restricted to ASCII digits). -/
def pyIsDigit (s : String) : Bool :=
  !s.data.isEmpty && s.data.all (fun c => c.isDigit)

/-- Python `int(...)` on an all-digit string. -/
def natOfDigits (s : String) : Nat :=
  s.data.foldl (fun a c => a * 10 + (c.toNat - ('0').toNat)) 0

/-- Python `str.strip()`: drop surrounding whitespace. -/
def pyStrip (s : String) : String :=
  String.mk (((s.data.dropWhile Char.isWhitespace).reverse.dropWhile
    Char.isWhitespace).reverse)

/-- Python `str.lower()` (ASCII case mapping). -/
def pyLower (s : String) : String :=
  String.mk (s.data.map Char.toLower)

/-- Python `str.upper()` (ASCII case mapping). -/
def pyUpper (s : String) : String :=
  String.mk (s.data.map Char.toUpper)

/-- Python `' '.join(...)`. -/
def joinSpace : List String → String
  | [] => ""
  | [s] => s
  | s :: rest => s ++ " " ++ joinSpace rest

/-! ## The HTML tree model -/

/-- A parsed HTML node: an element (tag name, `class` attribute tokens,
children in document order) or a text node. -/
inductive HNode where
  | elem (tag : String) (classes : List String) (children : List HNode)
  | text (s : String)

mutual
def HNode.deq : (a b : HNode) → Decidable (a = b)
  | .text s, .text t =>
    if h : s = t then .isTrue (by rw [h]) else .isFalse (by simp [h])
  | .text _, .elem _ _ _ => .isFalse (by simp)
  | .elem _ _ _, .text _ => .isFalse (by simp)
  | .elem t c ch, .elem t2 c2 ch2 =>
    if h1 : t = t2 then
      if h2 : c = c2 then
        match HNode.deqList ch ch2 with
        | .isTrue h3 => .isTrue (by rw [h1, h2, h3])
        | .isFalse h3 => .isFalse (by simp [h3])
      else .isFalse (by simp [h2])
    else .isFalse (by simp [h1])
def HNode.deqList : (a b : List HNode) → Decidable (a = b)
  | [], [] => .isTrue rfl
  | [], _ :: _ => .isFalse (by simp)
  | _ :: _, [] => .isFalse (by simp)
  | n :: r, n2 :: r2 =>
    match HNode.deq n n2 with
    | .isTrue h2 =>
      match HNode.deqList r r2 with
      | .isTrue h3 => .isTrue (by rw [h2, h3])
      | .isFalse h3 => .isFalse (by simp [h3])
    | .isFalse h2 => .isFalse (by simp [h2])
end

instance : DecidableEq HNode := HNode.deq

/-- Children of a node (text nodes have none). -/
def getChildren : HNode → List HNode
  | .elem _ _ ch => ch
  | .text _ => []

/-- Is the node an element with the given tag name? -/
def isTag (t : String) : HNode → Bool
  | .elem t2 _ _ => t2 == t
  | .text _ => false

/-- Is the node an element (a bs4 `Tag`)? -/
def isElemNode : HNode → Bool
  | .elem _ _ _ => true
  | .text _ => false

/-- The `class` attribute token list (`tag.get('class', [])`). -/
def classesOf : HNode → List String
  | .elem _ c _ => c
  | .text _ => []

mutual
/-- bs4 `get_text(strip=True)`: concatenation of all descendant text
nodes, each stripped. -/
def getTextN : HNode → String
  | .text s => pyStrip s
  | .elem _ _ ch => getTextL ch
def getTextL : List HNode → String
  | [] => ""
  | n :: ns => getTextN n ++ getTextL ns
end

mutual
/-- bs4 `tag.string`: the unique text reached through single children. -/
def tagString : HNode → Option String
  | .text s => some s
  | .elem _ _ ch => tagStringL ch
/-- `tag.string` helper: defined only for a single-child list. -/
def tagStringL : List HNode → Option String
  | [c] => tagString c
  | _ => none
end

mutual
/-- Pre-order enumeration (document order) of a subtree, paired with the
path (child-index sequence) of every node. -/
def preNode (p : List Nat) : HNode → List (List Nat × HNode)
  | .text s => [(p, .text s)]
  | .elem t c ch => (p, .elem t c ch) :: preList p 0 ch
def preList (p : List Nat) (i : Nat) : List HNode → List (List Nat × HNode)
  | [] => []
  | c :: cs => preNode (p ++ [i]) c ++ preList p (i + 1) cs
end

mutual
/-- All nodes of a subtree in document order (the node itself first). -/
def allNodes : HNode → List HNode
  | .text s => [.text s]
  | .elem t c ch => .elem t c ch :: descList ch
/-- All nodes of a forest in document order. -/
def descList : List HNode → List HNode
  | [] => []
  | n :: ns => allNodes n ++ descList ns
end

/-- All proper descendants of `root` with their paths, in document order
(what a bs4 search over `root` iterates). -/
def descendants (root : HNode) : List (List Nat × HNode) :=
  preList [] 0 (getChildren root)

/-- Node at a path. -/
def nodeAt : HNode → List Nat → Option HNode
  | n, [] => some n
  | n, i :: p =>
    match (getChildren n)[i]? with
    | some c => nodeAt c p
    | none => none

/-- bs4 `find`: first descendant (document order) satisfying a predicate,
with its path. -/
def findNode (root : HNode) (p : HNode → Bool) : Option (List Nat × HNode) :=
  (descendants root).find? (fun e => p e.2)

/-- bs4 `find_next_sibling()` with no filter: the next sibling element. -/
def nextSiblingTag (root : HNode) (p : List Nat) : Option HNode :=
  match p.getLast? with
  | none => none
  | some i =>
    match nodeAt root p.dropLast with
    | none => none
    | some par => ((getChildren par).drop (i + 1)).find? isElemNode

/-- Ancestor paths of a path, nearest first (ending at the root `[]`). -/
def ancestorPaths (p : List Nat) : List (List Nat) :=
  (List.range p.length).map (fun j => p.take (p.length - 1 - j))

/-- bs4 `find_parent(t)`: nearest ancestor element with tag `t`. -/
def findAncestorTag (root : HNode) (p : List Nat) (t : String) :
    Option (List Nat × HNode) :=
  ((ancestorPaths p).filterMap
    (fun q => (nodeAt root q).map (fun n => (q, n)))).find?
    (fun e => isTag t e.2)

/-- bs4 `find_next(t)`: first element with tag `t` strictly after the node
at path `p` in document order. -/
def findNextTag (root : HNode) (p : List Nat) (t : String) : Option HNode :=
  ((((descendants root).dropWhile (fun e => e.1 != p)).tail).find?
    (fun e => isTag t e.2)).map (fun e => e.2)

/-- Does `tagString` exist and contain `label` (the
`string=lambda x: x and label in x` matcher)? -/
def optContains (o : Option String) (label : String) : Bool :=
  match o with
  | some s => strSub label s
  | none => false

/-- Is the node a text node containing `label` (a `find(string=...)`
match)? -/
def isTextContaining (n : HNode) (label : String) : Bool :=
  match n with
  | .text s => strSub label s
  | .elem _ _ _ => false

/-! ## Field Extractor (`extract_text`, runts_monitor.py lines 46-62) -/

/-- Second heuristic of `extract_text`: find a text node containing the
label, take its parent element, return the stripped text of that parent's
next sibling element. -/
def extract_text_fallback (root : HNode) (label : String) : Option String :=
  match findNode root (fun n => isTextContaining n label) with
  | some e =>
    match nextSiblingTag root e.1.dropLast with
    | some sib => some (getTextN sib)
    | none => none
  | none => none

/-- `extract_text(soup, label_text)`: first a `strong` element whose
`.string` contains the label (value = stripped text of its next sibling
element), then the text-node fallback.  `None` when both heuristics fail;
an empty string is returned as-is. -/
def extract_text (root : HNode) (label : String) : Option String :=
  match findNode root
      (fun n => isTag "strong" n && optContains (tagString n) label) with
  | some e =>
    match nextSiblingTag root e.1 with
    | some sib => some (getTextN sib)
    | none => extract_text_fallback root label
  | none => extract_text_fallback root label

/-! ## Person-Block Extractor (`extract_person_data`, lines 64-95) -/

/-- The fixed person field/label table of `extract_person_data`. -/
def person_labels : List (String × String) :=
  [("tipo", "Tipo"),
   ("rappresentante_legale", "Rappresentante legale"),
   ("codice_fiscale", "Codice fiscale"),
   ("nome", "Nome"),
   ("cognome", "Cognome"),
   ("data_nascita", "Data di nascita"),
   ("provincia", "Provincia"),
   ("comune", "Comune"),
   ("carica", "Carica"),
   ("data_nomina", "Data nomina")]

/-- The path of the text node containing `"Persona {n}"` (line 68). -/
def person_section_path (root : HNode) (n : Nat) : Option (List Nat) :=
  (findNode root
    (fun m => isTextContaining m ("Persona " ++ toString n))).map
    (fun e => e.1)

/-- The located person container: nearest `div` ancestor of the
`"Persona {n}"` text node (line 73). -/
def person_container (root : HNode) (n : Nat) : Option (List Nat × HNode) :=
  match person_section_path root n with
  | some p => findAncestorTag root p "div"
  | none => none

/-- `extract_person_data(soup, person_num)` (lines 64-95): locates the
person container, then extracts every field with `extract_text(soup, ...)`
over the WHOLE document (the container is computed but not used for the
field lookups), keeping the fields whose value is not `None`. -/
def extract_person_data (root : HNode) (n : Nat) : List (String × String) :=
  match person_container root n with
  | none => []
  | some _ =>
    person_labels.filterMap
      (fun kl => (extract_text root kl.2).map (fun v => (kl.1, v)))

/-! ## Entity detail fields (`search_entity`, lines 412-438) -/

/-- The `dati_ente` field/label table (lines 412-420). -/
def dati_ente_fields : List (String × String) :=
  [("repertorio", "Repertorio"),
   ("codice_fiscale", "Codice fiscale"),
   ("data_iscrizione", "Iscritto il"),
   ("sezione", "Sezione"),
   ("forma_giuridica", "Forma Giuridica"),
   ("email_pec", "Email PEC"),
   ("atto_costitutivo", "Atto costitutivo")]

/-- The `sede_legale` field/label table (lines 428-435). -/
def sede_legale_fields : List (String × String) :=
  [("stato", "Stato"),
   ("provincia", "Provincia"),
   ("comune", "Comune"),
   ("indirizzo", "Indirizzo"),
   ("civico", "Civico"),
   ("cap", "CAP")]

/-- The `dati_ente` population loop (lines 412-425): a field is stored only
when `extract_text` yields a truthy (non-`None`, non-empty) value. -/
def build_dati_ente (root : HNode) : List (String × String) :=
  dati_ente_fields.filterMap
    (fun kl =>
      match extract_text root kl.2 with
      | some v => if v = "" then none else some (kl.1, v)
      | none => none)

/-- The `sede_legale` population loop (lines 428-438), same truthiness
filter. -/
def build_sede_legale (root : HNode) : List (String × String) :=
  sede_legale_fields.filterMap
    (fun kl =>
      match extract_text root kl.2 with
      | some v => if v = "" then none else some (kl.1, v)
      | none => none)

/-- The entity-title CSS selector of line 405
(`.ente_titolo-xl, .titolo-ente, h2:not([style*='display: none']), h3`):
a class token `ente_titolo-xl` or `titolo-ente`, or an `h2` or `h3`
element.  Style attributes are not part of the tree model (elements carry
none), so the `:not([style*='display: none'])` qualifier is always
satisfied. -/
def isTitleElement (n : HNode) : Bool :=
  (classesOf n).contains "ente_titolo-xl" ||
  (classesOf n).contains "titolo-ente" ||
  isTag "h2" n || isTag "h3" n

/-- `soup.select(...)` for the entity title (lines 404-407): the first
matching element in document order, when any matches. -/
def titleElement (root : HNode) : Option HNode :=
  (findNode root isTitleElement).map (fun e => e.2)

/-- The full `dati_ente` population (lines 404-425): when a title element
matches, its stripped text is stored under `denominazione`
UNCONDITIONALLY (lines 407-408 test only that the selector matched, not
that the text is non-empty), then the label loop adds only truthy
values. -/
def build_dati_ente_full (root : HNode) : List (String × String) :=
  (match titleElement root with
   | some t => [("denominazione", getTextN t)]
   | none => []) ++ build_dati_ente root

/-! ## Document Table Extractor (`extract_documents`, lines 97-237) -/

/-- One extracted document row (`document_data`, lines 213-218).
`ha_allegato` is the two-valued string field of the source. -/
structure Documento where
  tipo_documento : String
  codice_pratica : String
  anno : String
  ha_allegato : String
deriving DecidableEq

/-- Leftmost match of the regex `20\d{2}` in a char list (line 197): try a
match at every position, advancing one character at a time. -/
def findYearAux : List Char → Option String
  | [] => none
  | c :: rest =>
    match c, rest with
    | '2', '0' :: a :: b :: _ =>
      if a.isDigit && b.isDigit then some (String.mk ['2', '0', a, b])
      else findYearAux rest
    | _, _ => findYearAux rest

/-- Leftmost match of the regex `20\d{2}` in a string. -/
def findYear (s : String) : Option String :=
  findYearAux s.data

/-- The header keyword guard of line 164-165. -/
def keyword_list : List String :=
  ["documento", "file", "pratica", "codice", "allegato", "data"]

/-- Column-index inference (lines 170-175): first header containing one of
the keywords, with a positional default. -/
def colIdx (headers : List String) (kws : List String) (dflt : Nat) : Nat :=
  match headers.findIdx? (fun h => kws.any (fun kw => strSub kw h)) with
  | some i => i
  | none => dflt

/-- The `th`/`td` cells of a row, in document order (lines 160, 179). -/
def rowCells (row : HNode) : List HNode :=
  (descList (getChildren row)).filter (fun n => isTag "td" n || isTag "th" n)

/-- Stripped text of the cell at index `i`, `""` when the index is out of
range (lines 185-191). -/
def cellText (cells : List HNode) (i : Nat) : String :=
  match cells[i]? with
  | some c => getTextN c
  | none => ""

/-- The year/date field of a row (lines 193-201): the leftmost `20\d{2}`
token of the date cell, else the raw stripped cell text. -/
def cellAnno (cells : List HNode) (i : Nat) : String :=
  match cells[i]? with
  | some c =>
    match findYear (getTextN c) with
    | some y => y
    | none => getTextN c
  | none => ""

/-- The attachment test of lines 206-208: a hyperlink or image descendant,
a `download` class token on the cell, or an `i` descendant with a
`download` class token. -/
def attachMark (cell : HNode) : Bool :=
  (descList (getChildren cell)).any (fun n => isTag "a" n) ||
  (descList (getChildren cell)).any (fun n => isTag "img" n) ||
  (classesOf cell).contains "download" ||
  (descList (getChildren cell)).any
    (fun n => isTag "i" n && (classesOf n).contains "download")

/-- The `ha_allegato` field of a row (lines 203-209). -/
def row_ha_allegato (cells : List HNode) (i : Nat) : String :=
  match cells[i]? with
  | some c => if attachMark c then "Sì" else "No"
  | none => "No"

/-- The `document_data` record built from one data row (lines 183-218). -/
def rowRecord (cells : List HNode) (cd cc ct ca : Nat) : Documento :=
  { tipo_documento := cellText cells cd
    codice_pratica := cellText cells cc
    anno := cellAnno cells ct
    ha_allegato := row_ha_allegato cells ca }

/-- Processing of one data row (lines 178-222): skip rows with fewer than
two cells, emit the record when type or case code is non-empty, and skip
it when a record with the same `(tipo_documento, codice_pratica)` was
already collected. -/
def addRow (acc : List Documento) (row : HNode) (cd cc ct ca : Nat) :
    List Documento :=
  if (rowCells row).length < 2 then acc
  else if (rowRecord (rowCells row) cd cc ct ca).tipo_documento = "" ∧
      (rowRecord (rowCells row) cd cc ct ca).codice_pratica = "" then acc
  else if acc.any (fun e =>
      e.tipo_documento == (rowRecord (rowCells row) cd cc ct ca).tipo_documento &&
      e.codice_pratica == (rowRecord (rowCells row) cd cc ct ca).codice_pratica)
    then acc
  else acc ++ [rowRecord (rowCells row) cd cc ct ca]

/-- All data rows of a table, folded through `addRow`. -/
def processRows (rows : List HNode) (cd cc ct ca : Nat)
    (acc : List Documento) : List Documento :=
  rows.foldl (fun a r => addRow a r cd cc ct ca) acc

/-- The lowercased header-cell texts of the header row (line 161). -/
def tableHeaders (hrow : HNode) : List String :=
  (rowCells hrow).map (fun c => pyLower (getTextN c))

/-- Processing of one candidate table (lines 153-222): require at least
one data row, require a document-related header keyword, infer the column
mapping, process the data rows. -/
def processTable (acc : List Documento) (table : HNode) : List Documento :=
  match (descList (getChildren table)).filter (fun n => isTag "tr" n) with
  | [] => acc
  | hrow :: drows =>
    if drows.isEmpty then acc
    else if keyword_list.any
        (fun kw => strSub kw (joinSpace (tableHeaders hrow))) then
      processRows drows
        (colIdx (tableHeaders hrow) ["documento", "file", "titolo"] 0)
        (colIdx (tableHeaders hrow) ["codice", "pratica", "id"] 1)
        (colIdx (tableHeaders hrow) ["data", "anno", "period"] 2)
        (colIdx (tableHeaders hrow) ["allegato", "download", "file"] 3)
        acc
    else acc

/-- Section lookup (lines 104-127): the four non-throwing selectors, in
order — heading with `.string` exactly `"Atti e documenti"`, heading with
`.string` containing it, `div` with `.string` containing it, any text node
containing it.  Returns the path of the first hit. -/
def findSectionPath (root : HNode) : Option (List Nat) :=
  let phrase := "Atti e documenti"
  let isHeadingTag := fun n =>
    isTag "h1" n || isTag "h2" n || isTag "h3" n || isTag "h4" n
  match findNode root
      (fun n => isHeadingTag n && tagString n == some phrase) with
  | some e => some e.1
  | none =>
  match findNode root
      (fun n => isHeadingTag n && optContains (tagString n) phrase) with
  | some e => some e.1
  | none =>
  match findNode root
      (fun n => isTag "div" n && optContains (tagString n) phrase) with
  | some e => some e.1
  | none => (findNode root (fun n => isTextContaining n phrase)).map
      (fun e => e.1)

/-- All tables of the document (the `soup.find_all('table')` fallback of
line 150). -/
def allTables (root : HNode) : List HNode :=
  (descList (getChildren root)).filter (fun n => isTag "table" n)

/-- Sort keys of line 227-230: financial statements (`BILANCIO` in the
uppercased type) first. -/
def keyNat (d : Documento) : Nat :=
  if strSub "BILANCIO" (pyUpper d.tipo_documento) then 0 else 1

/-- Sort keys of line 227-230: negated numeric year (so that more recent
years come first), `0` for non-numeric years. -/
def keyYear (d : Documento) : Int :=
  if pyIsDigit d.anno then -(Int.ofNat (natOfDigits d.anno)) else 0

/-- The lexicographic comparison of the Python sort key tuples. -/
def keyLeP (a b : Documento) : Prop :=
  keyNat a < keyNat b ∨ (keyNat a = keyNat b ∧ keyYear a ≤ keyYear b)

instance (a b : Documento) : Decidable (keyLeP a b) := by
  unfold keyLeP; infer_instance

/-- Boolean form of the sort-key comparison. -/
def keyLe (a b : Documento) : Bool :=
  decide (keyLeP a b)

/-- Stable insertion: `x` goes after every already-placed record whose key
is less than or equal to its own. -/
def insDoc (x : Documento) : List Documento → List Documento
  | [] => [x]
  | y :: ys => if keyLe y x then y :: insDoc x ys else x :: y :: ys

/-- Python's stable `list.sort(key=...)` of line 227: records with equal
keys keep their relative order. -/
def pySort (l : List Documento) : List Documento :=
  l.foldl (fun acc x => insDoc x acc) []

/-- The candidate tables (lines 130-150): the table next to the located
section when there is one (a found table is always truthy), otherwise
every table of the document. -/
def candidateTables (root : HNode) (p : List Nat) : List HNode :=
  match findNextTag root p "table" with
  | some t => [t]
  | none => allTables root

/-- `extract_documents(soup)` (lines 97-237).  When the four non-throwing
section selectors all fail, the fifth selector (`find('table', <lambda>)`)
either finds no candidate table or raises inside the matcher (a callable
`attrs` is matched against the `class` attribute value, on which the
lambda calls `.find`), and the `except` handler returns the empty list
collected so far — so the result is `[]`.  Otherwise the table next to the
section is processed, falling back to every table of the document when
there is none, and the result is sorted. -/
def extract_documents (root : HNode) : List Documento :=
  match findSectionPath root with
  | none => []
  | some p => pySort ((candidateTables root p).foldl processTable [])

/-! ## Snapshot values and the Snapshot Differ (lines 610-653) -/

/-- A JSON-like snapshot value: the entity snapshots are nested dicts and
lists with string leaves. -/
inductive Val where
  | str : String → Val
  | dict : List (String × Val) → Val
  | arr : List Val → Val

mutual
def Val.deq : (a b : Val) → Decidable (a = b)
  | .str s, .str t =>
    if h : s = t then .isTrue (by rw [h]) else .isFalse (by simp [h])
  | .str _, .dict _ => .isFalse (by simp)
  | .str _, .arr _ => .isFalse (by simp)
  | .dict _, .str _ => .isFalse (by simp)
  | .dict d, .dict e =>
    match Val.deqFields d e with
    | .isTrue h => .isTrue (by rw [h])
    | .isFalse h => .isFalse (by simp [h])
  | .dict _, .arr _ => .isFalse (by simp)
  | .arr _, .str _ => .isFalse (by simp)
  | .arr _, .dict _ => .isFalse (by simp)
  | .arr l, .arr m =>
    match Val.deqArr l m with
    | .isTrue h => .isTrue (by rw [h])
    | .isFalse h => .isFalse (by simp [h])
def Val.deqFields : (a b : List (String × Val)) → Decidable (a = b)
  | [], [] => .isTrue rfl
  | [], _ :: _ => .isFalse (by simp)
  | _ :: _, [] => .isFalse (by simp)
  | (k, v) :: r, (k2, v2) :: r2 =>
    if h1 : k = k2 then
      match Val.deq v v2 with
      | .isTrue h2 =>
        match Val.deqFields r r2 with
        | .isTrue h3 => .isTrue (by rw [h1, h2, h3])
        | .isFalse h3 => .isFalse (by simp [h3])
      | .isFalse h2 => .isFalse (by simp [h2])
    else .isFalse (by simp [h1])
def Val.deqArr : (a b : List Val) → Decidable (a = b)
  | [], [] => .isTrue rfl
  | [], _ :: _ => .isFalse (by simp)
  | _ :: _, [] => .isFalse (by simp)
  | v :: r, v2 :: r2 =>
    match Val.deq v v2 with
    | .isTrue h2 =>
      match Val.deqArr r r2 with
      | .isTrue h3 => .isTrue (by rw [h2, h3])
      | .isFalse h3 => .isFalse (by simp [h3])
    | .isFalse h2 => .isFalse (by simp [h2])
end

instance : DecidableEq Val := Val.deq

mutual
/-- The per-value dispatch of `flatten_dict` (lines 615-624): a nested dict
recurses, a list is enumerated, a scalar becomes a flattened item. -/
def flatten_val : Val → String → List (String × Val)
  | .str s, nk => [(nk, .str s)]
  | .dict d, nk => flatten_dict d nk
  | .arr l, nk => flattenArr l nk 0
/-- `flatten_dict(d, prefix)` (lines 610-625): object keys join with `.`,
list elements with their bracketed index; scalar leaves (and non-dict list
elements) become the flattened values. -/
def flatten_dict : List (String × Val) → String → List (String × Val)
  | [], _ => []
  | (k, v) :: rest, pre =>
    flatten_val v (if pre = "" then k else pre ++ "." ++ k) ++
    flatten_dict rest pre
/-- The list branch of `flatten_dict` (lines 617-622): dict elements
recurse with the bracketed-index key, any other element is stored raw. -/
def flattenArr : List Val → String → Nat → List (String × Val)
  | [], _, _ => []
  | item :: rest, key, i =>
    (match item with
     | .dict d => flatten_dict d (key ++ "[" ++ toString i ++ "]")
     | other => [(key ++ "[" ++ toString i ++ "]", other)]) ++
    flattenArr rest key (i + 1)
end

/-- Lookup in a flattened item list with the semantics of Python
`dict(items)`: a later binding for the same key overwrites an earlier
one. -/
def flatGet (l : List (String × Val)) (k : String) : Option Val :=
  List.lookup k l.reverse

/-- A detected change (the dict of lines 645-651). -/
structure Change where
  nome : String
  codice_fiscale : String
  campo : String
  valore_precedente : Val
  valore_nuovo : Val
deriving DecidableEq

/-- The record produced for one flattened path by `compare_entities`. -/
def changeAt (flat_old flat_new : List (String × Val)) (cf nome key : String) :
    Option Change :=
  if key = "data_controllo" then none
  else if (flatGet flat_old key).getD (Val.str "N/A") ≠
      (flatGet flat_new key).getD (Val.str "N/A") then
    some { nome := nome, codice_fiscale := cf, campo := key,
           valore_precedente := (flatGet flat_old key).getD (Val.str "N/A"),
           valore_nuovo := (flatGet flat_new key).getD (Val.str "N/A") }
  else none

/-- `compare_entities(old_data, new_data, codice_fiscale, nome_ente)`
(lines 627-653): flatten both snapshots, walk the union of the flattened
key sets (a set, modelled as the deduplicated concatenation), skip
`data_controllo`, compare with the `"N/A"` sentinel for absent paths. -/
def compare_entities (old_data new_data : List (String × Val))
    (cf nome : String) : List Change :=
  let flat_old := flatten_dict old_data ""
  let flat_new := flatten_dict new_data ""
  let keys := ((flat_old.map Prod.fst) ++ (flat_new.map Prod.fst)).dedup
  keys.filterMap (changeAt flat_old flat_new cf nome)

/-! ## History update (`process_entity`, lines 655-679) -/

/-- Python `history[codice_fiscale] = current_data` on an association-list
history: overwrite the binding when present, append it otherwise. -/
def dictSet (h : List (String × List (String × Val))) (k : String)
    (v : List (String × Val)) : List (String × List (String × Val)) :=
  if h.any (fun e => e.1 == k) then
    h.map (fun e => if e.1 == k then (k, v) else e)
  else h ++ [(k, v)]

/-- The pure content of `process_entity` (lines 655-679), with the freshly
captured snapshot passed in: compare against the prior snapshot when the
identifier is already in the history (appending the detected changes),
then store the new snapshot unconditionally. -/
def process_entity (history : List (String × List (String × Val)))
    (all_changes : List Change) (cf nome : String)
    (current_data : List (String × Val)) :
    List (String × List (String × Val)) × List Change :=
  let new_changes :=
    match List.lookup cf history with
    | some old_data => all_changes ++ compare_entities old_data current_data cf nome
    | none => all_changes
  (dictSet history cf current_data, new_changes)

/-! ## Change Classifier (spec §4.6) -/

/-- A classified new-document event (spec §4.6 ChangeRecord fields). -/
structure ClassifiedChange where
  campo : String
  tipo_documento : String
  codice_pratica : String
  valore_nuovo : String
  category : String
  priority : String
deriving DecidableEq

/-- Modelled from the spec: the financial-statement marker of §4.3/§4.6
(`"BALANCE SHEET"/financial-statement marker`; `BILANCIO` in the source's
locale), checked against the uppercased document type. -/
def is_financial_statement (tipo : String) : Bool :=
  strSub "BILANCIO" (pyUpper tipo) || strSub "BALANCE SHEET" (pyUpper tipo)

/-- Modelled from the spec: the classification table of §4.6 — financial
statement of the current reporting year is high priority, financial
statement of another year medium, anything else low. -/
def classify_doc (d : Documento) (currentYear : String) : String × String :=
  if is_financial_statement d.tipo_documento then
    if d.anno = currentYear then ("new current-year financial statement", "high")
    else ("new financial statement", "medium")
  else ("new document", "low")

/-- Modelled from the spec: the Change Classifier's dedicated new-document
pass of §4.6, which is missing from the source file — only its consumer is
present (`send_notification`, lines 470-481, which singles out records
whose `campo` is `"Nuovo bilancio pubblicato"`).  Documents are keyed by
identity `(tipo_documento, codice_pratica)`, not by list position: every
document of the new snapshot whose identity key is absent from the old
snapshot yields one classified change record. -/
def classify_new_documents (old_docs new_docs : List Documento)
    (currentYear : String) : List ClassifiedChange :=
  (new_docs.filter (fun d =>
    !old_docs.any (fun o =>
      o.tipo_documento == d.tipo_documento &&
      o.codice_pratica == d.codice_pratica))).map
    (fun d =>
      { campo := if is_financial_statement d.tipo_documento then
          "Nuovo bilancio pubblicato" else "Nuovo documento"
        tipo_documento := d.tipo_documento
        codice_pratica := d.codice_pratica
        valore_nuovo := d.tipo_documento ++ " " ++ d.anno
        category := (classify_doc d currentYear).1
        priority := (classify_doc d currentYear).2 })

/-! ## Concrete example inputs -/

/-- Shorthand: an element with no `class` attribute. -/
def el (t : String) (ch : List HNode) : HNode := .elem t [] ch

/-- Shorthand: a text node. -/
def tx (s : String) : HNode := .text s

/-- A documents-table header row with the canonical Italian headers. -/
def exHeaderRow : HNode :=
  el "tr" [el "th" [tx "Documento"], el "th" [tx "Codice pratica"],
           el "th" [tx "Data"], el "th" [tx "Allegato"]]

/-- A documents-table data row with an empty attachment cell. -/
def exRow (a b c : String) : HNode :=
  el "tr" [el "td" [tx a], el "td" [tx b], el "td" [tx c], el "td" []]

/-- Two financial-statement rows for the same year, order A then B. -/
def exC3docA : HNode :=
  el "[document]" [el "h2" [tx "Atti e documenti"],
    el "table" [exHeaderRow, exRow "BILANCIO A" "C1" "2023",
                exRow "BILANCIO B" "C2" "2023"]]

/-- The same two rows, order B then A. -/
def exC3docB : HNode :=
  el "[document]" [el "h2" [tx "Atti e documenti"],
    el "table" [exHeaderRow, exRow "BILANCIO B" "C2" "2023",
                exRow "BILANCIO A" "C1" "2023"]]

/-- Two person blocks: Persona 1 carries a `Nome` field, Persona 2 carries
no fields of its own. -/
def exC2doc : HNode :=
  el "[document]" [
    el "div" [tx "Persona 1", el "strong" [tx "Nome"], el "span" [tx "Mario"]],
    el "div" [tx "Persona 2"]]

/-- The Persona 2 container of `exC2doc`. -/
def exC2container : HNode := el "div" [tx "Persona 2"]

/-- A person block whose `Tipo` label is followed by a whitespace-only
value element. -/
def exC7doc : HNode :=
  el "[document]" [el "div" [tx "Persona 1", el "strong" [tx "Tipo"],
    el "span" [tx " "]]]

/-- A detail page with a title heading, one person field, one entity
field and one registered-office field. -/
def exC7wit : HNode :=
  el "[document]" [
    el "h3" [tx "Ente Esempio ETS"],
    el "div" [tx "Persona 1", el "strong" [tx "Carica"],
              el "span" [tx "Presidente"]],
    el "div" [el "strong" [tx "Codice fiscale"], el "span" [tx "00112233"]],
    el "div" [el "strong" [tx "CAP"], el "span" [tx "00100"]]]

/-- A detail page whose only title element is an empty `h3`: the selector
matches, so `denominazione` is stored as the empty string. -/
def exC7title : HNode :=
  el "[document]" [el "h3" []]

/-- A documents table whose attachment cell holds a hyperlink. -/
def exC6doc : HNode :=
  el "[document]" [el "h2" [tx "Atti e documenti"],
    el "table" [exHeaderRow,
      el "tr" [el "td" [tx "BILANCIO"], el "td" [tx "B9"], el "td" [tx "2024"],
               el "td" [el "a" [tx "scarica"]]]]]

/-- An old snapshot with a capture timestamp and one entity field. -/
def exC5old : List (String × Val) :=
  [("data_controllo", Val.str "2024-01-01 10:00:00"),
   ("dati_ente", Val.dict [("sezione", Val.str "APS")])]

/-- A new snapshot with a different capture timestamp and a changed entity
field. -/
def exC5new : List (String × Val) :=
  [("data_controllo", Val.str "2024-02-02 11:00:00"),
   ("dati_ente", Val.dict [("sezione", Val.str "ODV")])]

/-- A snapshot that stores the literal sentinel string under key `a`. -/
def exC10old : List (String × Val) :=
  [("a", Val.str "N/A"), ("b", Val.str "x")]

/-- A snapshot with no key `a`. -/
def exC10new : List (String × Val) := [("b", Val.str "y")]

/-- A history that has no entry for identifier `CF1`. -/
def exC8history : List (String × List (String × Val)) :=
  [("CF2", [("denominazione", Val.str "Ente Due")])]

/-- A freshly captured snapshot for identifier `CF1`. -/
def exC8current : List (String × Val) :=
  [("codice_fiscale", Val.str "CF1")]

/-- The old document list of the spec's high-priority scenario. -/
def scenario_old : List Documento :=
  [⟨"BALANCE SHEET", "C1", "2023", "Sì"⟩]

/-- The new document list of the spec's high-priority scenario. -/
def scenario_new : List Documento :=
  [⟨"BALANCE SHEET", "C1", "2023", "Sì"⟩,
   ⟨"BALANCE SHEET", "C2", "2024", "Sì"⟩]

/-- A non-financial document used for permutation witnesses. -/
def exDocStatuto : Documento := ⟨"STATUTO", "S1", "2020", "No"⟩

/-- A financial document used for permutation witnesses. -/
def exDocBilancio : Documento := ⟨"BILANCIO", "B1", "2021", "No"⟩

/-! ## Helper lemmas about the Snapshot Differ -/

theorem changeAt_campo {fo fn : List (String × Val)} {cf nome k : String}
    {c : Change} (h : changeAt fo fn cf nome k = some c) : c.campo = k := by
  unfold changeAt at h
  split at h
  · exact absurd h (by simp)
  · split at h
    · cases h
      rfl
    · exact absurd h (by simp)

/-- Swapping previous and new value of a change record. -/
def swapChange (c : Change) : Change :=
  { c with valore_precedente := c.valore_nuovo,
           valore_nuovo := c.valore_precedente }

theorem swapChange_swapChange (c : Change) : swapChange (swapChange c) = c :=
  rfl

theorem changeAt_swap_mp {fo fn : List (String × Val)} {cf nome k : String}
    {c : Change} (h : changeAt fo fn cf nome k = some c) :
    changeAt fn fo cf nome k = some (swapChange c) := by
  unfold changeAt at h ⊢
  by_cases hk : k = "data_controllo"
  · rw [if_pos hk] at h
    exact absurd h (by simp)
  · rw [if_neg hk] at h ⊢
    by_cases hne : (flatGet fo k).getD (Val.str "N/A") =
        (flatGet fn k).getD (Val.str "N/A")
    · rw [if_neg (by simpa using hne)] at h
      exact absurd h (by simp)
    · rw [if_pos hne] at h
      rw [if_pos (Ne.symm hne)]
      cases h
      rfl

theorem changeAt_swap (fo fn : List (String × Val)) (cf nome k : String)
    (c : Change) :
    changeAt fo fn cf nome k = some c ↔
    changeAt fn fo cf nome k = some (swapChange c) := by
  constructor
  · exact changeAt_swap_mp
  · intro h
    have h2 := changeAt_swap_mp h
    rwa [swapChange_swapChange] at h2

theorem mem_compare_keys (fo fn : List (String × Val)) (k : String) :
    k ∈ ((fo.map Prod.fst) ++ (fn.map Prod.fst)).dedup ↔
    k ∈ ((fn.map Prod.fst) ++ (fo.map Prod.fst)).dedup := by
  simp only [List.mem_dedup, List.mem_append]
  exact Or.comm

/-! ## Helper lemmas about the history update -/

theorem lookup_map_set (k : String) (v : List (String × Val)) :
    ∀ (t : List (String × List (String × Val))),
    t.any (fun e => e.1 == k) = true →
    List.lookup k (t.map (fun e => if e.1 == k then (k, v) else e)) = some v
  | [], h => by simp at h
  | (a, b) :: t, h => by
    by_cases he : (a == k) = true
    · have hak : a = k := by simpa using he
      subst hak
      simp [List.lookup_cons]
    · have he2 : (k == a) = false := by
        simp only [beq_eq_false_iff_ne, beq_iff_eq] at he ⊢
        exact fun hx => he hx.symm
      simp only [List.any_cons, he, Bool.false_or] at h
      have hrec := lookup_map_set k v t h
      simp only [List.map_cons]
      rw [if_neg he]
      simp only [List.lookup_cons, he2]
      exact hrec

theorem lookup_append_set (k : String) (v : List (String × Val)) :
    ∀ (t : List (String × List (String × Val))),
    t.any (fun e => e.1 == k) = false →
    List.lookup k (t ++ [(k, v)]) = some v
  | [], _ => by simp [List.lookup_cons]
  | (a, b) :: t, h => by
    simp only [List.any_cons, Bool.or_eq_false_iff] at h
    have he2 : (k == a) = false := by
      have h1 := h.1
      simp only [beq_eq_false_iff_ne, beq_iff_eq] at h1 ⊢
      exact fun hx => h1 hx.symm
    have hrec := lookup_append_set k v t h.2
    simp [List.lookup_cons, he2, hrec]

theorem dictSet_lookup (h : List (String × List (String × Val)))
    (k : String) (v : List (String × Val)) :
    List.lookup k (dictSet h k v) = some v := by
  unfold dictSet
  cases hany : h.any (fun e => e.1 == k) with
  | true =>
    rw [if_pos rfl]
    exact lookup_map_set k v h hany
  | false =>
    rw [if_neg (by simp)]
    exact lookup_append_set k v h hany

/-! ## Helper lemmas about the document sort -/

theorem keyLeP_total (a b : Documento) : keyLeP a b ∨ keyLeP b a := by
  unfold keyLeP
  omega

theorem keyLeP_trans {a b c : Documento} (h1 : keyLeP a b)
    (h2 : keyLeP b c) : keyLeP a c := by
  unfold keyLeP at h1 h2 ⊢
  omega

theorem insDoc_perm (x : Documento) : ∀ (l : List Documento),
    (insDoc x l).Perm (x :: l)
  | [] => List.Perm.refl _
  | y :: ys => by
    unfold insDoc
    by_cases hc : keyLe y x = true
    · rw [if_pos hc]
      exact ((insDoc_perm x ys).cons y).trans (List.Perm.swap x y ys)
    · rw [if_neg hc]

theorem insDoc_pairwise (x : Documento) : ∀ (l : List Documento),
    l.Pairwise keyLeP → (insDoc x l).Pairwise keyLeP
  | [], _ => by simp [insDoc]
  | y :: ys, h => by
    unfold insDoc
    rcases List.pairwise_cons.mp h with ⟨hy, hys⟩
    by_cases hc : keyLe y x = true
    · rw [if_pos hc]
      refine List.pairwise_cons.mpr ⟨?_, insDoc_pairwise x ys hys⟩
      intro z hz
      rcases List.mem_cons.mp ((insDoc_perm x ys).mem_iff.mp hz) with hzx | hzys
      · subst hzx
        exact of_decide_eq_true hc
      · exact hy z hzys
    · rw [if_neg hc]
      have hxy : keyLeP x y := by
        rcases keyLeP_total x y with h1 | h1
        · exact h1
        · exact absurd (decide_eq_true h1) hc
      refine List.pairwise_cons.mpr ⟨?_, h⟩
      intro z hz
      rcases List.mem_cons.mp hz with hzy | hzys
      · subst hzy
        exact hxy
      · exact keyLeP_trans hxy (hy z hzys)

theorem pySort_sorted_aux : ∀ (l acc : List Documento),
    acc.Pairwise keyLeP →
    (l.foldl (fun a x => insDoc x a) acc).Pairwise keyLeP
  | [], _, h => h
  | x :: xs, acc, h =>
    pySort_sorted_aux xs (insDoc x acc) (insDoc_pairwise x acc h)

theorem pySort_sorted (l : List Documento) : (pySort l).Pairwise keyLeP :=
  pySort_sorted_aux l [] (List.Pairwise.nil)

theorem pySort_perm_aux : ∀ (l acc : List Documento),
    (l.foldl (fun a x => insDoc x a) acc).Perm (acc ++ l)
  | [], acc => by simp
  | x :: xs, acc => by
    have h1 := pySort_perm_aux xs (insDoc x acc)
    have h2 : (insDoc x acc ++ xs).Perm (acc ++ x :: xs) := by
      have h3 := (insDoc_perm x acc).append_right xs
      exact h3.trans List.perm_middle.symm
    exact h1.trans h2

theorem pySort_perm (l : List Documento) : (pySort l).Perm l := by
  have := pySort_perm_aux l []
  simpa using this

/-! ## Helper lemmas about deduplication -/

/-- Two records have different identity keys. -/
def keyDistinctP (a b : Documento) : Prop :=
  a.tipo_documento ≠ b.tipo_documento ∨ a.codice_pratica ≠ b.codice_pratica

instance (a b : Documento) : Decidable (keyDistinctP a b) := by
  unfold keyDistinctP
  infer_instance

theorem keyDistinctP_symm {a b : Documento} (h : keyDistinctP a b) :
    keyDistinctP b a := by
  unfold keyDistinctP at h ⊢
  tauto

theorem addRow_pairwise (acc : List Documento) (row : HNode)
    (cd cc ct ca : Nat) (h : acc.Pairwise keyDistinctP) :
    (addRow acc row cd cc ct ca).Pairwise keyDistinctP := by
  unfold addRow
  split
  · exact h
  · split
    · exact h
    · split
      · exact h
      · next hany =>
        rw [List.pairwise_append]
        refine ⟨h, List.pairwise_singleton _ _, ?_⟩
        intro a ha b hb
        rw [List.mem_singleton] at hb
        subst hb
        have hfa : ∀ x ∈ acc,
            ¬(x.tipo_documento ==
                (rowRecord (rowCells row) cd cc ct ca).tipo_documento &&
              x.codice_pratica ==
                (rowRecord (rowCells row) cd cc ct ca).codice_pratica) = true := by
          rw [← List.any_eq_false]
          exact Bool.of_not_eq_true hany
        have := hfa a ha
        unfold keyDistinctP
        simp only [Bool.and_eq_true, beq_iff_eq, not_and_or] at this
        tauto

theorem processRows_pairwise : ∀ (rows : List HNode) (cd cc ct ca : Nat)
    (acc : List Documento), acc.Pairwise keyDistinctP →
    (processRows rows cd cc ct ca acc).Pairwise keyDistinctP
  | [], _, _, _, _, _, h => h
  | r :: rs, cd, cc, ct, ca, acc, h =>
    processRows_pairwise rs cd cc ct ca _ (addRow_pairwise acc r cd cc ct ca h)

theorem processTable_pairwise (acc : List Documento) (t : HNode)
    (h : acc.Pairwise keyDistinctP) :
    (processTable acc t).Pairwise keyDistinctP := by
  unfold processTable
  split
  · exact h
  · split
    · exact h
    · split
      · exact processRows_pairwise _ _ _ _ _ _ h
      · exact h

theorem foldTables_pairwise : ∀ (ts : List HNode) (acc : List Documento),
    acc.Pairwise keyDistinctP →
    (ts.foldl processTable acc).Pairwise keyDistinctP
  | [], _, h => h
  | t :: ts, acc, h =>
    foldTables_pairwise ts _ (processTable_pairwise acc t h)

/-! ## Helper lemmas about the attachment field -/

theorem row_ha_two (cells : List HNode) (i : Nat) :
    row_ha_allegato cells i = "Sì" ∨ row_ha_allegato cells i = "No" := by
  unfold row_ha_allegato
  split
  · split
    · exact Or.inl rfl
    · exact Or.inr rfl
  · exact Or.inr rfl

/-- The attachment field carries one of the two source literals. -/
def haTwoValued (d : Documento) : Prop :=
  d.ha_allegato = "Sì" ∨ d.ha_allegato = "No"

theorem addRow_ha (acc : List Documento) (row : HNode) (cd cc ct ca : Nat)
    (h : ∀ d ∈ acc, haTwoValued d) :
    ∀ d ∈ addRow acc row cd cc ct ca, haTwoValued d := by
  unfold addRow
  split
  · exact h
  · split
    · exact h
    · split
      · exact h
      · intro d hd
        rcases List.mem_append.mp hd with h1 | h2
        · exact h d h1
        · rw [List.mem_singleton] at h2
          subst h2
          exact row_ha_two _ _

theorem processRows_ha : ∀ (rows : List HNode) (cd cc ct ca : Nat)
    (acc : List Documento), (∀ d ∈ acc, haTwoValued d) →
    ∀ d ∈ processRows rows cd cc ct ca acc, haTwoValued d
  | [], _, _, _, _, _, h => h
  | r :: rs, cd, cc, ct, ca, acc, h =>
    processRows_ha rs cd cc ct ca _ (addRow_ha acc r cd cc ct ca h)

theorem processTable_ha (acc : List Documento) (t : HNode)
    (h : ∀ d ∈ acc, haTwoValued d) :
    ∀ d ∈ processTable acc t, haTwoValued d := by
  unfold processTable
  split
  · exact h
  · split
    · exact h
    · split
      · exact processRows_ha _ _ _ _ _ _ h
      · exact h

theorem foldTables_ha : ∀ (ts : List HNode) (acc : List Documento),
    (∀ d ∈ acc, haTwoValued d) →
    ∀ d ∈ ts.foldl processTable acc, haTwoValued d
  | [], _, h => h
  | t :: ts, acc, h =>
    foldTables_ha ts _ (processTable_ha acc t h)

theorem contains_mem_iff (l : List String) (a : String) :
    l.contains a = true ↔ a ∈ l := by
  simp

theorem attachMark_iff (c : HNode) :
    attachMark c = true ↔
    ((∃ n ∈ descList (getChildren c), isTag "a" n = true) ∨
     (∃ n ∈ descList (getChildren c), isTag "img" n = true) ∨
     "download" ∈ classesOf c ∨
     (∃ n ∈ descList (getChildren c), isTag "i" n = true ∧
       "download" ∈ classesOf n)) := by
  unfold attachMark
  simp only [Bool.or_eq_true, List.any_eq_true, Bool.and_eq_true,
    contains_mem_iff]
  constructor
  · rintro (((h | h) | h) | h)
    · exact Or.inl h
    · exact Or.inr (Or.inl h)
    · exact Or.inr (Or.inr (Or.inl h))
    · exact Or.inr (Or.inr (Or.inr h))
  · rintro (h | h | h | h)
    · exact Or.inl (Or.inl (Or.inl h))
    · exact Or.inl (Or.inl (Or.inr h))
    · exact Or.inl (Or.inr h)
    · exact Or.inr h

/-! ## Helper lemmas about the modelled classifier -/

theorem any_perm_eq {l1 l2 : List Documento} (h : l1.Perm l2)
    (p : Documento → Bool) : l1.any p = l2.any p := by
  have hiff : l1.any p = true ↔ l2.any p = true := by
    simp only [List.any_eq_true]
    constructor
    · rintro ⟨x, hx, hpx⟩
      exact ⟨x, h.mem_iff.mp hx, hpx⟩
    · rintro ⟨x, hx, hpx⟩
      exact ⟨x, h.mem_iff.mpr hx, hpx⟩
  cases h1 : l1.any p <;> cases h2 : l2.any p <;> simp_all

theorem classify_perm_invariant (old1 old2 new_docs : List Documento)
    (cy : String) (h : old1.Perm old2) :
    classify_new_documents old1 new_docs cy =
    classify_new_documents old2 new_docs cy := by
  unfold classify_new_documents
  congr 1
  apply List.filter_congr
  intro d _hd
  rw [any_perm_eq h]

theorem filter_filter_key_len : ∀ (l : List Documento) (d : Documento)
    (p : Documento → Bool), l.Pairwise keyDistinctP → d ∈ l → p d = true →
    ((l.filter p).filter (fun e =>
      e.tipo_documento == d.tipo_documento &&
      e.codice_pratica == d.codice_pratica)).length = 1
  | [], _, _, _, hd, _ => absurd hd (by simp)
  | x :: xs, d, p, hpw, hd, hpd => by
    rcases List.pairwise_cons.mp hpw with ⟨hx, hxs⟩
    rcases List.mem_cons.mp hd with hdx | hdxs
    · subst hdx
      rw [List.filter_cons_of_pos hpd]
      rw [List.filter_cons_of_pos (by simp)]
      have hrest : ((xs.filter p).filter (fun e =>
          e.tipo_documento == d.tipo_documento &&
          e.codice_pratica == d.codice_pratica)) = [] := by
        rw [List.filter_eq_nil_iff]
        intro a ha
        have hamem : a ∈ xs := List.mem_of_mem_filter ha
        have := hx a hamem
        unfold keyDistinctP at this
        simp only [Bool.and_eq_true, beq_iff_eq]
        tauto
      simp [hrest]
    · cases hpx : p x with
      | false =>
        rw [List.filter_cons_of_neg (by simp [hpx])]
        exact filter_filter_key_len xs d p hxs hdxs hpd
      | true =>
        rw [List.filter_cons_of_pos hpx]
        have hxd : ¬(x.tipo_documento == d.tipo_documento &&
            x.codice_pratica == d.codice_pratica) = true := by
          have := hx d hdxs
          unfold keyDistinctP at this
          simp only [Bool.and_eq_true, beq_iff_eq]
          tauto
        rw [List.filter_cons_of_neg (by simpa using hxd)]
        exact filter_filter_key_len xs d p hxs hdxs hpd

theorem classify_exactly_one (old_docs new_docs : List Documento)
    (cy : String) (d : Documento) (hpw : new_docs.Pairwise keyDistinctP)
    (hd : d ∈ new_docs)
    (habs : ∀ o ∈ old_docs, ¬(o.tipo_documento = d.tipo_documento ∧
      o.codice_pratica = d.codice_pratica)) :
    ((classify_new_documents old_docs new_docs cy).filter (fun c =>
      c.tipo_documento == d.tipo_documento &&
      c.codice_pratica == d.codice_pratica)).length = 1 := by
  unfold classify_new_documents
  rw [List.filter_map]
  rw [List.length_map]
  have hpd : (!old_docs.any (fun o =>
      o.tipo_documento == d.tipo_documento &&
      o.codice_pratica == d.codice_pratica)) = true := by
    simp only [Bool.not_eq_true', List.any_eq_false]
    intro o ho
    have := habs o ho
    simp only [Bool.and_eq_true, beq_iff_eq]
    tauto
  have := filter_filter_key_len new_docs d (fun e => !old_docs.any (fun o =>
      o.tipo_documento == e.tipo_documento &&
      o.codice_pratica == e.codice_pratica)) hpw hd hpd
  exact this

/-! ## Claim theorems -/

/-- C1: the Change Classifier's dedicated pass (modelled from the spec,
§4.6) compares `new.documents` against `old.documents` by document
identity `(documentType, caseCode)` and not by list position — its result
is invariant under reordering of the old document list; every document of
the new snapshot whose identity key is absent from the old snapshot yields
exactly one new-document change record; and on the spec's scenario (old
`[{BALANCE SHEET, C1, 2023}]`, new adding `{BALANCE SHEET, C2, 2024}`,
current year 2024) it yields exactly one record with category
`new current-year financial statement` and priority `high`. -/
theorem c1_new_document_classifier :
    (∀ (old1 old2 new_docs : List Documento) (cy : String), old1.Perm old2 →
      classify_new_documents old1 new_docs cy =
      classify_new_documents old2 new_docs cy) ∧
    (∀ (old_docs new_docs : List Documento) (cy : String) (d : Documento),
      new_docs.Pairwise keyDistinctP → d ∈ new_docs →
      (∀ o ∈ old_docs, ¬(o.tipo_documento = d.tipo_documento ∧
        o.codice_pratica = d.codice_pratica)) →
      ((classify_new_documents old_docs new_docs cy).filter (fun c =>
        c.tipo_documento == d.tipo_documento &&
        c.codice_pratica == d.codice_pratica)).length = 1) ∧
    classify_new_documents scenario_old scenario_new "2024" =
      [{ campo := "Nuovo bilancio pubblicato",
         tipo_documento := "BALANCE SHEET", codice_pratica := "C2",
         valore_nuovo := "BALANCE SHEET 2024",
         category := "new current-year financial statement",
         priority := "high" }] :=
  ⟨fun old1 old2 new_docs cy h =>
    classify_perm_invariant old1 old2 new_docs cy h,
   fun old_docs new_docs cy d h1 h2 h3 =>
    classify_exactly_one old_docs new_docs cy d h1 h2 h3,
   by decide⟩

/-- C1 witness: the classifier theorem applied at concrete inputs — a
two-element old list permuted, and the spec scenario. -/
theorem c1_new_document_classifier_witness :
    scenario_new.Pairwise keyDistinctP ∧
    (⟨"BALANCE SHEET", "C2", "2024", "Sì"⟩ : Documento) ∈ scenario_new ∧
    classify_new_documents [exDocStatuto, exDocBilancio] scenario_new "2024" =
      classify_new_documents [exDocBilancio, exDocStatuto] scenario_new "2024" ∧
    ((classify_new_documents scenario_old scenario_new "2024").filter
      (fun c => c.tipo_documento == "BALANCE SHEET" &&
        c.codice_pratica == "C2")).length = 1 :=
  ⟨by decide, by decide,
   c1_new_document_classifier.1 [exDocStatuto, exDocBilancio]
     [exDocBilancio, exDocStatuto] scenario_new "2024"
     (List.Perm.swap exDocBilancio exDocStatuto []),
   c1_new_document_classifier.2.1 scenario_old scenario_new "2024"
     ⟨"BALANCE SHEET", "C2", "2024", "Sì"⟩ (by decide) (by decide)
     (by decide)⟩

/-- C2 (code bug): on a document with two person blocks, the Person-Block
Extractor run for Persona 2 returns the field value `Mario` coming from
Persona 1's block, even though Persona 2's located container does not
contain `Mario` at all — the source computes the container but extracts
every field from the whole document. -/
theorem c2_cross_contamination_shown :
    extract_person_data exC2doc 2 = [("nome", "Mario")] ∧
    person_container exC2doc 2 = some ([1], exC2container) ∧
    strSub "Mario" (getTextN exC2container) = false := by
  decide

/-- C3 counterexample: two documents with the same two data rows in
different input order produce outputs that are permutations of each other
(the same `(documentType, year)` pairs and even the same records) yet are
different sequences — the output ordering is not a pure function of the
pairs and is not independent of input row order. -/
theorem c3_input_order_dependence :
    extract_documents exC3docA =
      [⟨"BILANCIO A", "C1", "2023", "No"⟩,
       ⟨"BILANCIO B", "C2", "2023", "No"⟩] ∧
    extract_documents exC3docB =
      [⟨"BILANCIO B", "C2", "2023", "No"⟩,
       ⟨"BILANCIO A", "C1", "2023", "No"⟩] ∧
    ((extract_documents exC3docA).map
      (fun d => (d.tipo_documento, d.anno))).Perm
      ((extract_documents exC3docB).map
        (fun d => (d.tipo_documento, d.anno))) ∧
    extract_documents exC3docA ≠ extract_documents exC3docB := by
  refine ⟨by decide, by decide, by decide, by decide⟩

/-- C3 (amended): for every input document the Document Table Extractor's
output is sorted by the source's key — records whose type contains the
financial-statement marker `BILANCIO` before all others, and within each
group by descending numeric year with non-numeric years treated as year 0;
records with equal sort keys keep their relative input order (Python's
sort is stable), so ties depend on input row order. -/
theorem c3_sorted_by_publication_key (root : HNode) :
    (extract_documents root).Pairwise keyLeP := by
  unfold extract_documents
  split
  · exact List.Pairwise.nil
  · exact pySort_sorted _

/-- C4: for every input document, the Document Table Extractor's output
never contains two records with the same `(documentType, caseCode)`
identity key — a data row whose identity was already collected is
skipped. -/
theorem c4_no_duplicate_identity (root : HNode) :
    (extract_documents root).Pairwise keyDistinctP := by
  unfold extract_documents
  split
  · exact List.Pairwise.nil
  · exact (List.Perm.pairwise_iff (fun h => keyDistinctP_symm h)
      (pySort_perm _)).mpr (foldTables_pairwise _ [] List.Pairwise.nil)

/-- C5: for every pair of snapshots, the Snapshot Differ never emits a
change record whose path is the capture timestamp `data_controllo`, even
when the two snapshots carry different timestamps — the key is skipped
before any comparison. -/
theorem c5_capture_timestamp_excluded (old_data new_data : List (String × Val))
    (cf nome : String) (c : Change)
    (hc : c ∈ compare_entities old_data new_data cf nome) :
    c.campo ≠ "data_controllo" := by
  unfold compare_entities at hc
  simp only [List.mem_filterMap] at hc
  obtain ⟨k, _hk, hck⟩ := hc
  have hcam := changeAt_campo hck
  intro hdc
  rw [hdc] at hcam
  unfold changeAt at hck
  rw [if_pos hcam.symm] at hck
  exact absurd hck (by simp)

/-- C5 witness: two snapshots with different capture timestamps and one
changed field produce a change record, and its path is not the
timestamp. -/
theorem c5_capture_timestamp_excluded_witness :
    ({ nome := "Ente Uno", codice_fiscale := "CF1",
       campo := "dati_ente.sezione", valore_precedente := Val.str "APS",
       valore_nuovo := Val.str "ODV" } : Change) ∈
      compare_entities exC5old exC5new "CF1" "Ente Uno" ∧
    ({ nome := "Ente Uno", codice_fiscale := "CF1",
       campo := "dati_ente.sezione", valore_precedente := Val.str "APS",
       valore_nuovo := Val.str "ODV" } : Change).campo ≠ "data_controllo" :=
  ⟨by decide,
   c5_capture_timestamp_excluded exC5old exC5new "CF1" "Ente Uno" _
     (by decide)⟩

/-- C6: every record emitted by the Document Table Extractor carries one
of the two attachment values (`Sì` / `No`), and the attachment field of a
processed row is `Sì` exactly when the attachment-column cell exists and
contains a hyperlink descendant, an image descendant, a `download` class
token on the cell itself, or an `i` descendant with a `download` class
token. -/
theorem c6_ha_allegato_characterization :
    (∀ (root : HNode) (d : Documento), d ∈ extract_documents root →
      d.ha_allegato = "Sì" ∨ d.ha_allegato = "No") ∧
    (∀ (cells : List HNode) (i : Nat),
      row_ha_allegato cells i = "Sì" ↔
      ∃ c, cells[i]? = some c ∧
        ((∃ n ∈ descList (getChildren c), isTag "a" n = true) ∨
         (∃ n ∈ descList (getChildren c), isTag "img" n = true) ∨
         "download" ∈ classesOf c ∨
         (∃ n ∈ descList (getChildren c), isTag "i" n = true ∧
           "download" ∈ classesOf n))) := by
  constructor
  · intro root d hd
    unfold extract_documents at hd
    split at hd
    · exact absurd hd (by simp)
    · exact foldTables_ha _ [] (by simp) d ((pySort_perm _).mem_iff.mp hd)
  · intro cells i
    unfold row_ha_allegato
    cases hc : cells[i]? with
    | none => simp
    | some c =>
      simp only [Option.some.injEq]
      by_cases hm : attachMark c = true
      · rw [if_pos hm]
        constructor
        · intro _
          exact ⟨c, rfl, (attachMark_iff c).mp hm⟩
        · intro _
          rfl
      · rw [if_neg hm]
        constructor
        · intro h
          exact absurd h (by decide)
        · rintro ⟨c0, hc0, hp⟩
          subst hc0
          exact absurd ((attachMark_iff _).mpr hp) hm

/-- C6 witness: a table row whose attachment cell holds a hyperlink yields
a record with `ha_allegato = "Sì"`, and the characterization theorem
applies to it. -/
theorem c6_ha_allegato_characterization_witness :
    (⟨"BILANCIO", "B9", "2024", "Sì"⟩ : Documento) ∈
      extract_documents exC6doc ∧
    ((⟨"BILANCIO", "B9", "2024", "Sì"⟩ : Documento).ha_allegato = "Sì" ∨
     (⟨"BILANCIO", "B9", "2024", "Sì"⟩ : Documento).ha_allegato = "No") :=
  ⟨by decide,
   c6_ha_allegato_characterization.1 exC6doc _ (by decide)⟩

/-- C7 counterexample: a person block whose `Tipo` label is followed by a
whitespace-only element yields a PersonRecord storing the empty string —
person fields are filtered only for `None`, not for emptiness, so an
empty-string placeholder is stored. -/
theorem c7_empty_string_stored :
    extract_person_data exC7doc 1 = [("tipo", "")] := by
  decide

/-- C7 (amended): the `entityInfo` labelled-field loop and the
`registeredOffice` loop store only truthy values — never null and never
the empty string; the `denominazione` title field is the one exception,
stored unconditionally whenever a title element matches (so it can be the
empty string); PersonRecords omit fields only when extraction returns
`None`, every stored person value being an actual `extract_text` result,
so empty strings can be stored there. -/
theorem c7_present_values_policy (root : HNode) :
    (∀ kv ∈ build_dati_ente_full root, kv.1 ≠ "denominazione" → kv.2 ≠ "") ∧
    (∀ t, titleElement root = some t →
      ("denominazione", getTextN t) ∈ build_dati_ente_full root) ∧
    (∀ kv ∈ build_sede_legale root, kv.2 ≠ "") ∧
    (∀ n : Nat, ∀ kv ∈ extract_person_data root n,
      ∃ lbl, (kv.1, lbl) ∈ person_labels ∧
        extract_text root lbl = some kv.2) := by
  refine ⟨?_, ?_, ?_, ?_⟩
  · intro kv hkv hden
    unfold build_dati_ente_full at hkv
    rcases List.mem_append.mp hkv with htitle | hloop
    · exfalso
      apply hden
      split at htitle
      · rw [List.mem_singleton] at htitle
        rw [htitle]
      · exact absurd htitle (by simp)
    · unfold build_dati_ente at hloop
      simp only [List.mem_filterMap] at hloop
      obtain ⟨fl, _hfl, hf⟩ := hloop
      split at hf
      · split at hf
        · exact absurd hf (by simp)
        · next hne =>
          cases hf
          exact hne
      · exact absurd hf (by simp)
  · intro t ht
    unfold build_dati_ente_full
    rw [ht]
    exact List.mem_append.mpr (Or.inl (by simp))
  · intro kv hkv
    unfold build_sede_legale at hkv
    simp only [List.mem_filterMap] at hkv
    obtain ⟨fl, _hfl, hf⟩ := hkv
    split at hf
    · split at hf
      · exact absurd hf (by simp)
      · next hne =>
        cases hf
        exact hne
    · exact absurd hf (by simp)
  · intro n kv hkv
    unfold extract_person_data at hkv
    split at hkv
    · exact absurd hkv (by simp)
    · simp only [List.mem_filterMap] at hkv
      obtain ⟨kl, hkl, hf⟩ := hkv
      rw [Option.map_eq_some'] at hf
      obtain ⟨v, hv, hkv2⟩ := hf
      refine ⟨kl.2, ?_, ?_⟩
      · rw [← hkv2]
        exact hkl
      · rw [← hkv2]
        exact hv

/-- C7 witness: the policy theorem applied to a concrete detail page with
a title heading, one entity field, one registered-office field and one
person field; and the unconditional title store shown putting an empty
string into `denominazione` on a page whose title element is empty. -/
theorem c7_present_values_policy_witness :
    ("codice_fiscale", "00112233") ∈ build_dati_ente_full exC7wit ∧
    ("codice_fiscale" : String) ≠ "denominazione" ∧
    ("00112233" : String) ≠ "" ∧
    titleElement exC7wit = some (el "h3" [tx "Ente Esempio ETS"]) ∧
    ("denominazione", "Ente Esempio ETS") ∈ build_dati_ente_full exC7wit ∧
    ("cap", "00100") ∈ build_sede_legale exC7wit ∧
    ("00100" : String) ≠ "" ∧
    ("carica", "Presidente") ∈ extract_person_data exC7wit 1 ∧
    (∃ lbl, ("carica", lbl) ∈ person_labels ∧
      extract_text exC7wit lbl = some "Presidente") ∧
    build_dati_ente_full exC7title = [("denominazione", "")] :=
  ⟨by decide, by decide,
   (c7_present_values_policy exC7wit).1 ("codice_fiscale", "00112233")
     (by decide) (by decide),
   by decide,
   (c7_present_values_policy exC7wit).2.1 (el "h3" [tx "Ente Esempio ETS"])
     (by decide),
   by decide,
   (c7_present_values_policy exC7wit).2.2.1 ("cap", "00100") (by decide),
   by decide,
   (c7_present_values_policy exC7wit).2.2.2 1 ("carica", "Presidente")
     (by decide),
   by decide⟩

/-- C8: after processing an identifier, the history entry for it equals
the freshly captured snapshot, regardless of whether changes were
detected; and when the history had no prior entry, no change record is
appended (the history afterwards contains the identifier by the first
part). -/
theorem c8_history_overwrite (history : List (String × List (String × Val)))
    (all_changes : List Change) (cf nome : String)
    (current_data : List (String × Val)) :
    List.lookup cf
      (process_entity history all_changes cf nome current_data).1 =
      some current_data ∧
    (List.lookup cf history = none →
      (process_entity history all_changes cf nome current_data).2 =
        all_changes) := by
  constructor
  · exact dictSet_lookup history cf current_data
  · intro hnone
    unfold process_entity
    rw [hnone]

/-- C8 witness: a first sighting — the history has no entry for `CF1`,
afterwards it stores the new snapshot and no change was produced. -/
theorem c8_history_overwrite_witness :
    List.lookup "CF1" exC8history = none ∧
    List.lookup "CF1"
      (process_entity exC8history [] "CF1" "Ente Uno" exC8current).1 =
      some exC8current ∧
    (process_entity exC8history [] "CF1" "Ente Uno" exC8current).2 = [] :=
  ⟨by decide,
   (c8_history_overwrite exC8history [] "CF1" "Ente Uno" exC8current).1,
   (c8_history_overwrite exC8history [] "CF1" "Ente Uno" exC8current).2
     (by decide)⟩

/-- C9: for every pair of snapshots `A` and `B`, a change record is in
`diff(A, B)` exactly when its previous/new-swapped version is in
`diff(B, A)`; in particular both diffs contain exactly the same set of
dotted paths. -/
theorem c9_diff_symmetry : ∀ (a b : List (String × Val)) (cf nome : String),
    (∀ c : Change, c ∈ compare_entities a b cf nome ↔
      swapChange c ∈ compare_entities b a cf nome) ∧
    (∀ p : String, (∃ c ∈ compare_entities a b cf nome, c.campo = p) ↔
      (∃ c ∈ compare_entities b a cf nome, c.campo = p)) := by
  intro a b cf nome
  have hmain : ∀ c : Change, c ∈ compare_entities a b cf nome ↔
      swapChange c ∈ compare_entities b a cf nome := by
    intro c
    unfold compare_entities
    simp only [List.mem_filterMap]
    constructor
    · rintro ⟨k, hk, hck⟩
      exact ⟨k, (mem_compare_keys _ _ k).mp hk, changeAt_swap_mp hck⟩
    · rintro ⟨k, hk, hck⟩
      refine ⟨k, (mem_compare_keys _ _ k).mpr hk, ?_⟩
      exact (changeAt_swap _ _ _ _ _ _).mpr hck
  refine ⟨hmain, ?_⟩
  intro p
  constructor
  · rintro ⟨c, hc, hp⟩
    exact ⟨swapChange c, (hmain c).mp hc, hp⟩
  · rintro ⟨c, hc, hp⟩
    refine ⟨swapChange c, ?_, hp⟩
    have h2 := (hmain (swapChange c)).mpr
    rw [swapChange_swapChange] at h2
    exact h2 hc

/-- C10: when a flattened path carries the literal string `N/A` in the old
snapshot and is absent from the new one, the Snapshot Differ emits no
change record for that path — the stored value coincides with the sentinel
substituted for the missing side. -/
theorem c10_na_sentinel_collision (old_data new_data : List (String × Val))
    (cf nome key : String)
    (h1 : flatGet (flatten_dict old_data "") key = some (Val.str "N/A"))
    (h2 : flatGet (flatten_dict new_data "") key = none) :
    ∀ c ∈ compare_entities old_data new_data cf nome, c.campo ≠ key := by
  intro c hc hcam
  unfold compare_entities at hc
  simp only [List.mem_filterMap] at hc
  obtain ⟨k, _hk, hck⟩ := hc
  have hk2 := changeAt_campo hck
  rw [hcam] at hk2
  subst hk2
  unfold changeAt at hck
  split at hck
  · exact absurd hck (by simp)
  · rw [h1, h2] at hck
    simp at hck

/-- C10 witness: a snapshot storing the literal `N/A` under key `a`,
compared against a snapshot without key `a`, yields no change record for
path `a`. -/
theorem c10_na_sentinel_collision_witness :
    flatGet (flatten_dict exC10old "") "a" = some (Val.str "N/A") ∧
    flatGet (flatten_dict exC10new "") "a" = none ∧
    ∀ c ∈ compare_entities exC10old exC10new "CF1" "Ente Uno",
      c.campo ≠ "a" :=
  ⟨by decide, by decide,
   c10_na_sentinel_collision exC10old exC10new "CF1" "Ente Uno" "a"
     (by decide) (by decide)⟩
